import Mathlib

/-!
# raspiNetworkShareSetup: a shallow embedding of `main.go`

The program is a linear script over operating-system facilities.  The embedding
keeps the package-level variables as an explicit record (`Globals`), the
operating system and the Go standard library's answers as an explicit record
(`World`), and every observable action as an `Event` of a trace.

Go strings are modelled by Lean strings (sequences of characters; on valid
UTF-8 text the byte-wise operations of Go used here agree with the
character-wise ones).  A Go `error` is `Option String`: `none` is `nil`,
`some msg` is an error whose `Error()` text is `msg`.

The functions of Go's standard library that decide a property (`net.IP`
methods, `net.ParseIP` on dotted-decimal text, `net.CIDRMask`,
`strings.Split`, `strings.Contains`, `strings.TrimSpace`, `unicode.IsSpace`,
`os.Open` and `File.WriteString`) follow the library's source and
documentation; the others are fields of `World`.  `flag.Parse` is taken to have
run: `main` starts from the parsed flags.
-/

namespace RaspiShare

/-! ## Go's `error`, bytes and `net.IP` -/

/-- Go `error`: `none` is `nil`. -/
abbrev Error := Option String

/-- Go `byte`. -/
abbrev Byte := Fin 256

/-- Go `net.IP` (a byte slice); the nil slice is the empty list. -/
abbrev IP := List Byte

/-- Go `net.IPv4len`. -/
def IPv4len : Nat := 4

/-- Go `net.IPv6len`. -/
def IPv6len : Nat := 16

/-- Go `net.v4InV6Prefix`. -/
def v4InV6Prefix : List Byte := [0, 0, 0, 0, 0, 0, 0, 0, 0, 0, 0xff, 0xff]

/-- Go `net.IPv4(a, b, c, d)`: the 16-byte form of an IPv4 address. -/
def IPv4 (a b c d : Byte) : IP := v4InV6Prefix ++ [a, b, c, d]

/-- Go `net.IPv6loopback`. -/
def IPv6loopback : IP := [0, 0, 0, 0, 0, 0, 0, 0, 0, 0, 0, 0, 0, 0, 0, 1]

/-- Go `net.isZeros`. -/
def isZeros (p : List Byte) : Bool := p.all (fun b => b == 0)

/-- Go `net.allFF`. -/
def allFF (p : List Byte) : Bool := p.all (fun b => b == 0xff)

/-- Go `IP.To4`: the 4-byte form of an IPv4 address, nil otherwise. -/
def To4 (ip : IP) : IP :=
  if ip.length = IPv4len then ip
  else if ip.length = IPv6len && isZeros (ip.take 10)
      && (ip.drop 10).take 2 == [0xff, 0xff] then
    ip.drop 12
  else []

/-- Go `IP.Equal`. -/
def IPEqual (ip x : IP) : Bool :=
  if ip.length = x.length then ip == x
  else if ip.length = IPv4len && x.length = IPv6len then
    x.take 12 == v4InV6Prefix && ip == x.drop 12
  else if ip.length = IPv6len && x.length = IPv4len then
    ip.take 12 == v4InV6Prefix && ip.drop 12 == x
  else false

/-- Go `IP.IsLoopback`. -/
def IsLoopback (ip : IP) : Bool :=
  let ip4 := To4 ip
  if ip4 ≠ [] then ip4.head? == some 127
  else IPEqual ip IPv6loopback

/-- Go `net.CIDRMask(ones, bits)`; the loop over the mask bytes, `n` ones left. -/
def cidrMaskBytes : Nat → Nat → List Byte
  | 0, _ => []
  | l + 1, n =>
    if n ≥ 8 then (0xff : Byte) :: cidrMaskBytes l (n - 8)
    else Fin.ofNat (0xff - (0xff >>> n)) :: cidrMaskBytes l 0

/-- Go `net.CIDRMask(ones, bits)` for non-negative `ones`. -/
def CIDRMask (ones bits : Nat) : List Byte :=
  if bits ≠ 8 * IPv4len ∧ bits ≠ 8 * IPv6len then []
  else if ones > bits then []
  else cidrMaskBytes (bits / 8) ones

/-- Go `IP.Mask`. -/
def Mask (ip : IP) (mask : List Byte) : IP :=
  let mask := if mask.length = IPv6len && ip.length = IPv4len && allFF (mask.take 12)
    then mask.drop 12 else mask
  let ip := if mask.length = IPv4len && ip.length = IPv6len && ip.take 12 == v4InV6Prefix
    then ip.drop 12 else ip
  if ip.length ≠ mask.length then []
  else List.zipWith (fun a b => a &&& b) ip mask

/-! ## Text form of IPv4 addresses -/

/-- The character `v + '0'`. -/
def digit (v : Nat) : Char := Char.ofNat (v + 48)

/-- Go `net.ubtoa`: decimal form of a byte, no leading zeros. -/
def ubtoa (v : Byte) : List Char :=
  if v.val < 10 then [digit v.val]
  else if v.val < 100 then [digit (v.val / 10), digit (v.val % 10)]
  else [digit (v.val / 100), digit ((v.val / 10) % 10), digit (v.val % 10)]

/-- Dotted-decimal text of four bytes. -/
def dotted (a b c d : Byte) : String :=
  String.mk (ubtoa a ++ '.' :: ubtoa b ++ '.' :: ubtoa c ++ '.' :: ubtoa d)

/-- Go `IP.String`.  The text of a non-empty slice that is not an IPv4 address
(IPv6 notation, or `?` and hexadecimal digits for other lengths) is left to
`other`. -/
def IPString (other : IP → String) (ip : IP) : String :=
  if ip.length = 0 then "<nil>"
  else match To4 ip with
    | [a, b, c, d] => dotted a b c d
    | _ => other ip

/-- Go `net.big`, the overflow bound of `dtoi`. -/
def big : Nat := 0xFFFFFF

/-- Go `net.dtoi`, the loop: value so far `n`, characters consumed `i`. -/
def dtoiLoop : List Char → Nat → Nat → Nat × Nat × Bool
  | [], n, i => if i = 0 then (0, 0, false) else (n, i, true)
  | c :: cs, n, i =>
    if '0' ≤ c ∧ c ≤ '9' then
      let n1 := n * 10 + (c.toNat - '0'.toNat)
      if n1 ≥ big then (big, i, false) else dtoiLoop cs n1 (i + 1)
    else if i = 0 then (0, 0, false) else (n, i, true)

/-- Go `net.dtoi`: decimal to integer; value, characters consumed, success. -/
def dtoi (s : List Char) : Nat × Nat × Bool := dtoiLoop s 0 0

/-- Go `net.parseIPv4`, the loop over the four fields; `k` fields are left,
`i` is the field index and `p` holds the bytes read so far. -/
def parseIPv4Fields : Nat → Nat → List Char → List Byte → Option (List Byte × List Char)
  | 0, _, s, p => some (p, s)
  | k + 1, i, s, p =>
    if s.length = 0 then none
    else
      let s1? : Option (List Char) :=
        if i > 0 then (if s.head? ≠ some '.' then none else some s.tail) else some s
      match s1? with
      | none => none
      | some s1 =>
        let r := dtoi s1
        if !r.2.2 || r.1 > 0xFF then none
        else if r.2.1 > 1 && s1.head? == some '0' then none
        else parseIPv4Fields k (i + 1) (s1.drop r.2.1) (p ++ [Fin.ofNat r.1])

/-- Go `net.parseIPv4`. -/
def parseIPv4 (s : List Char) : IP :=
  match parseIPv4Fields IPv4len 0 s [] with
  | some ([a, b, c, d], []) => IPv4 a b c d
  | _ => []

/-- Go `net.ParseIP`: the first `.` or `:` decides the syntax.  The IPv6 parser
is left to `parseIPv6`. -/
def parseIPScan (parseIPv6 : String → IP) (s : List Char) : List Char → IP
  | [] => []
  | c :: cs =>
    if c = '.' then parseIPv4 s
    else if c = ':' then parseIPv6 (String.mk s)
    else parseIPScan parseIPv6 s cs

/-- Go `net.ParseIP`. -/
def ParseIP (parseIPv6 : String → IP) (s : String) : IP :=
  parseIPScan parseIPv6 s.data s.data

/-! ## Go's `strings` and `unicode` helpers -/

/-- Go `unicode.IsSpace`. -/
def IsSpace (r : Char) : Bool :=
  let n := r.toNat
  if n ≤ 0xFF then
    n = 0x09 || n = 0x0A || n = 0x0B || n = 0x0C || n = 0x0D || n = 0x20 || n = 0x85 || n = 0xA0
  else
    n = 0x1680 || (0x2000 ≤ n && n ≤ 0x200a) || n = 0x2028 || n = 0x2029 || n = 0x202f
      || n = 0x205f || n = 0x3000

/-- Go `strings.TrimSpace`: leading and trailing white space removed. -/
def TrimSpace (s : String) : String :=
  String.mk (((s.data.dropWhile IsSpace).reverse.dropWhile IsSpace).reverse)

/-- Go `strings.Contains` on character lists: `sub` occurs at some position of `s`. -/
def containsChars (sub : List Char) : List Char → Bool
  | [] => sub.isEmpty
  | c :: cs => sub.isPrefixOf (c :: cs) || containsChars sub cs

/-- Go `strings.Contains`. -/
def Contains (s substr : String) : Bool := containsChars substr.data s.data

/-- Go `strings.Split` for a non-empty separator: the rest of the text, the
field being read (reversed) and the number of characters of a matched
separator still to be skipped. -/
def splitChars (sep : List Char) : List Char → List Char → Nat → List String
  | [], cur, _ => [String.mk cur.reverse]
  | _ :: cs, cur, skip + 1 => splitChars sep cs cur skip
  | c :: cs, cur, 0 =>
    if sep.isPrefixOf (c :: cs) then String.mk cur.reverse :: splitChars sep cs [] (sep.length - 1)
    else splitChars sep cs (c :: cur) 0

/-- Go `strings.Split`. -/
def Split (s sep : String) : List String :=
  if sep.data.isEmpty then s.data.map (fun c => String.mk [c])
  else splitChars sep.data s.data [] 0

/-! ## The program's state, its environment and its observable actions -/

/-- The command-line flags after `flag.Parse`. -/
structure Flags where
  n : String := "smb-pi"
  d : String := ""
  g : String := ""
  u : String := ""
  deriving DecidableEq, Repr

/-- The mutable package-level variables of `main.go`. -/
structure Globals where
  uid : Int := 0
  gid : Int := 0
  localIP : IP := []
  err : Error := none
  deriving DecidableEq, Repr

/-- The package-level `mntDir`. -/
def mntDir : String := "/mnt/usb"

/-- The package-level `usage`. -/
def usage : String :=
  "Usage: raspiNetworkShareSetup [options...]\n\nOptions:\n\t-n\tshare name. Defaults to \"smb-pi\"\n\t-d\tusb drive path (required)\n\t-u\tuser id used for file ownership (required)\n\t-g\tgroup id used for file ownership (required)\n\n** should be run with root priviledges\n"

/-- Go `net.Addr` values as `net.InterfaceAddrs` may return them: a `*net.IPNet`
or a value of another dynamic type. -/
inductive Addr where
  | ipNet (ip : IP) (mask : List Byte)
  | other (network text : String)
  deriving DecidableEq, Repr

/-- One call of `fmt.Scanf("%s", &c)`: a token is stored and the error is nil,
or nothing is stored and the error is not nil. -/
inductive Scan where
  | token (s : String)
  | fail (msg : String)
  deriving DecidableEq, Repr

/-- The answers of the operating system and of the parts of Go's standard
library that are taken as given. -/
structure World where
  /-- The process environment. -/
  env : String → Option String
  /-- Go `user.LookupGroup`: the `Gid` text of the group. -/
  LookupGroup : String → Except String String
  /-- Go `user.Lookup`: the `Uid` text of the user. -/
  Lookup : String → Except String String
  /-- Go `strconv.Atoi`: the value and the error. -/
  Atoi : String → Int × Error
  /-- Go `net.InterfaceAddrs`. -/
  InterfaceAddrs : Except String (List Addr)
  /-- Go `net.parseIPv6`. -/
  parseIPv6 : String → IP
  /-- Go `IP.String` on slices that are not IPv4 addresses. -/
  ipText : IP → String
  /-- Go `os.MkdirAll`. -/
  MkdirAll : String → Nat → Error
  /-- Go `os.Chown`. -/
  Chown : String → Int → Int → Error
  /-- Go `exec.Command(name, args...).Run()`. -/
  Run : String → List String → Error
  /-- The outcomes of the successive `fmt.Scanf` calls until the end of the
  input; at the end of the input every further call fails. -/
  stdin : List Scan

/-- Go `os.Getenv`: the empty string when the variable is unset. -/
def Getenv (w : World) (key : String) : String := (w.env key).getD ""

/-- The observable actions of a run. -/
inductive Event where
  | stdout (text : String)
  | stderr (text : String)
  | lookupGroup (name : String)
  | lookupUser (name : String)
  | interfaceAddrs
  | mkdirAll (path : String) (perm : Nat)
  | chown (path : String) (uid gid : Int)
  | scanf
  | command (name : String) (args : List String)
  deriving DecidableEq, Repr

/-- How a function call ends: it returns (a value, the package variables and
the input not yet read), or it never returns. -/
inductive Flow (α : Type) where
  | ret (val : α) (g : Globals) (stdin : List Scan)
  | hang
  deriving DecidableEq, Repr

/-- How the process ends: an exit status, or it never ends. -/
inductive Outcome where
  | exit (code : Nat)
  | hang
  deriving DecidableEq, Repr

/-- A run of `main`: the trace of actions and the way the process ends.  With
`Outcome.hang` the trace is the part up to the end of the input, after which
the prompt and the failing read repeat for ever. -/
structure RunResult where
  trace : List Event
  outcome : Outcome
  deriving DecidableEq, Repr

/-! ## The functions of `main.go` -/

/-- The function `checkRequiredFlags`: `some r` when it prints the usage text and
calls `os.Exit(0)`, `none` when it returns. -/
def checkRequiredFlags (f : Flags) : Option RunResult :=
  if f.u = "" ∨ f.g = "" ∨ f.d = "" then
    some ⟨[Event.stderr usage], Outcome.exit 0⟩
  else none

/-- The function `setupIds`: the trace, the returned error and the package
variables (its `err` is a local variable). -/
def setupIds (w : World) (f : Flags) (g : Globals) : List Event × Error × Globals :=
  let t0 := [Event.stdout ("looking up ids for user " ++ f.u ++ " and group " ++ f.g ++ "\n"),
    Event.lookupGroup f.g]
  match w.LookupGroup f.g with
  | .error e => (t0, some e, g)
  | .ok groupGid =>
    let t1 := t0 ++ [Event.lookupUser f.u]
    match w.Lookup f.u with
    | .error e => (t1, some e, g)
    | .ok userUid =>
      let gidRes := w.Atoi groupGid
      let g1 : Globals := { g with gid := gidRes.1 }
      if gidRes.2 ≠ none then (t1, gidRes.2, g1)
      else
        let uidRes := w.Atoi userUid
        let g2 : Globals := { g1 with uid := uidRes.1 }
        if uidRes.2 ≠ none then (t1, uidRes.2, g2)
        else (t1, uidRes.2, g2)

/-- The loop body of `getLocalIpAddress`: the text kept after looking at `a`. -/
def pickAddr (w : World) (ip : String) (a : Addr) : String :=
  match a with
  | .ipNet ipn _ =>
    if !IsLoopback ipn then
      if To4 ipn ≠ [] then IPString w.ipText ipn else ip
    else ip
  | .other _ _ => ip

/-- The function `getLocalIpAddress`: the trace, the returned error and the
package variables. -/
def getLocalIpAddress (w : World) (g : Globals) : List Event × Error × Globals :=
  let t0 := [Event.stdout "getting local ip address\n", Event.interfaceAddrs]
  match w.InterfaceAddrs with
  | .error e => (t0, some e, g)
  | .ok addrs =>
    let ip := addrs.foldl (pickAddr w) ""
    if ip = "" then (t0, some "could not find the local ip address", g)
    else (t0, none, { g with localIP := ParseIP w.parseIPv6 ip })

/-- The text written by `println("Input \"y\" to continue:")`. -/
def prompt : String := "Input \"y\" to continue:\n"

/-- The value of `c` after one `fmt.Scanf("%s", &c)`. -/
def Scan.store (r : Scan) (c : String) : String :=
  match r with
  | .token t => t
  | .fail _ => c

/-- The error returned by one `fmt.Scanf("%s", &c)`. -/
def Scan.error (r : Scan) : Error :=
  match r with
  | .token _ => none
  | .fail m => some m

/-- The confirmation loop `for c != "y" { println(...); _, err = fmt.Scanf("%s", &c) }`
from the values of `c` and `err` on entry: the trace, and on exit the last
`err` and the input not yet read; `none` when the loop never exits. -/
def confirmLoop : List Scan → String → Error → List Event × Option (Error × List Scan)
  | [], c, err => if c = "y" then ([], some (err, [])) else ([], none)
  | r :: rest, c, err =>
    if c = "y" then ([], some (err, r :: rest))
    else
      let next := confirmLoop rest (r.store c) r.error
      (Event.stderr prompt :: Event.scanf :: next.1, next.2)

/-- The `os.Chown` loop of `createMountDirectory` over the components `vs`:
the final `p`, the final `err` and the trace. -/
def chownLoop (w : World) (gid : Int) : List String → String → Error → List Event →
    String × Error × List Event
  | [], p, err, tr => (p, err, tr)
  | v :: vs, p, _, tr =>
    let p1 := p ++ "/" ++ v
    chownLoop w gid vs p1 (w.Chown p1 (-1) gid) (tr ++ [Event.chown p1 (-1) gid])

/-- The line `fstabLine` of `createMountDirectory`. -/
def fstabLine (f : Flags) : String := f.d ++ " " ++ mntDir ++ " auto defaults,user 0 1"

/-- The function `createMountDirectory` (its `err` is a local variable). -/
def createMountDirectory (w : World) (f : Flags) (g : Globals) (stdin : List Scan) :
    List Event × Flow Error :=
  let t0 := [Event.stdout ("creating mount directory using gid " ++ toString g.gid ++ "\n"),
    Event.mkdirAll mntDir 1777]
  let err0 := w.MkdirAll mntDir 1777
  let l := chownLoop w g.gid (Split mntDir "/") "" err0 []
  let t1 := t0 ++ l.2.2 ++ [Event.stdout
    ("MANUAL STEP: to automatically mount the drive, append the following line to the /etc/fstab file:\n"
      ++ fstabLine f ++ "\n")]
  let c := confirmLoop stdin "" l.2.1
  match c.2 with
  | none => (t1 ++ c.1, Flow.hang)
  | some (err, rest) => (t1 ++ c.1, Flow.ret err g rest)

/-- The function `installRequiredSoftware`. -/
def installRequiredSoftware (w : World) : List Event × Error :=
  let args := ["install", "-y", "nfs-server", "nfs-common", "autofs", "samba", "samba-common-bin"]
  ([Event.stdout "installing required software\n", Event.command "apt" args], w.Run "apt" args)

/-- The text `ip` of `makeMntDirAccessible`: the masked address and the prefix length. -/
def subnetText (w : World) (localIP : IP) : String :=
  IPString w.ipText (Mask localIP (CIDRMask 24 32)) ++ "/24"

/-- The line `expLine` of `makeMntDirAccessible`. -/
def expLine (w : World) (localIP : IP) : String :=
  mntDir ++ " " ++ subnetText w localIP ++ "(rw,sync)"

/-- The function `makeMntDirAccessible` (its `err` is the package variable). -/
def makeMntDirAccessible (w : World) (g : Globals) (stdin : List Scan) :
    List Event × Flow Error :=
  let t0 := [Event.stdout ("using ip " ++ IPString w.ipText g.localIP ++ "\n"),
    Event.stdout
      ("MANUAL STEP: to make the mount accessible, append the following line to the /etc/exports file:\n"
        ++ expLine w g.localIP ++ "\n")]
  let c := confirmLoop stdin "" g.err
  match c.2 with
  | none => (t0 ++ c.1, Flow.hang)
  | some (err, rest) =>
    let g1 : Globals := { g with err := err }
    let g2 : Globals := { g1 with err := w.Run "update-rc.d" ["rpcbind", "enable"] }
    let g3 : Globals := { g2 with err := w.Run "update-rc.d" ["nfs-common", "enable"] }
    (t0 ++ c.1 ++ [Event.stdout "enabling rpcbind \n",
        Event.command "update-rc.d" ["rpcbind", "enable"],
        Event.stdout "enabling nfs-common \n",
        Event.command "update-rc.d" ["nfs-common", "enable"]],
      Flow.ret none g3 rest)

/-- The deferred function of `main`, run when `main` returns after the trace
`tr` with package variables `g`; a return of `main` ends the process with
status 0. -/
def deferred (tr : List Event) (g : Globals) : RunResult :=
  match g.err with
  | some e => ⟨tr ++ [Event.stdout ("error running raspiNetworkShareSetup: " ++ e)], Outcome.exit 1⟩
  | none => ⟨tr, Outcome.exit 0⟩

/-- The function `main`, from the flags that `flag.Parse` has stored. -/
def main (w : World) (f : Flags) : RunResult :=
  match checkRequiredFlags f with
  | some r => r
  | none =>
    let g0 : Globals := {}
    let sudoUser := Getenv w "SUDO_USER"
    if TrimSpace sudoUser = "" then
      deferred [] { g0 with err := some "this command should be run with root priviledges" }
    else
      let r1 := setupIds w f g0
      let g1 : Globals := { r1.2.2 with err := r1.2.1 }
      if g1.err ≠ none then deferred r1.1 g1
      else
        let r2 := getLocalIpAddress w g1
        let g2 : Globals := { r2.2.2 with err := r2.2.1 }
        if g2.err ≠ none then deferred (r1.1 ++ r2.1) g2
        else
          let r3 := createMountDirectory w f g2 w.stdin
          match r3.2 with
          | Flow.hang => ⟨r1.1 ++ r2.1 ++ r3.1, Outcome.hang⟩
          | Flow.ret e3 g3 in3 =>
            let g3 : Globals := { g3 with err := e3 }
            if g3.err ≠ none then deferred (r1.1 ++ r2.1 ++ r3.1) g3
            else
              let r4 := installRequiredSoftware w
              let g4 : Globals := { g3 with err := r4.2 }
              if g4.err ≠ none then deferred (r1.1 ++ r2.1 ++ r3.1 ++ r4.1) g4
              else
                let r5 := makeMntDirAccessible w g4 in3
                match r5.2 with
                | Flow.hang => ⟨r1.1 ++ r2.1 ++ r3.1 ++ r4.1 ++ r5.1, Outcome.hang⟩
                | Flow.ret e5 g5 _ =>
                  let g5 : Globals := { g5 with err := e5 }
                  if g5.err ≠ none then deferred (r1.1 ++ r2.1 ++ r3.1 ++ r4.1 ++ r5.1) g5
                  else
                    deferred (r1.1 ++ r2.1 ++ r3.1 ++ r4.1 ++ r5.1 ++ [Event.stderr
                      "Done.\nFinish the setup by restarting the computer with \"sudo reboot now\"\n"])
                      g5

/-- A sample environment: one loopback and one LAN interface, every system call
succeeds, and the operator types `n`, then `y`, then `y`. -/
def sampleWorld : World where
  env := fun k => if k = "SUDO_USER" then some "pi" else none
  LookupGroup := fun _ => .ok "1000"
  Lookup := fun _ => .ok "1000"
  Atoi := fun s => if s = "1000" then (1000, none) else (0, some "invalid syntax")
  InterfaceAddrs := .ok [Addr.ipNet [127, 0, 0, 1] [255, 0, 0, 0],
    Addr.ipNet [192, 168, 1, 42] [255, 255, 255, 0], Addr.ipNet IPv6loopback []]
  parseIPv6 := fun _ => []
  ipText := fun _ => "?"
  MkdirAll := fun _ _ => none
  Chown := fun _ _ _ => none
  Run := fun _ _ => none
  stdin := [Scan.token "n", Scan.fail "unexpected newline", Scan.token "y", Scan.token "y"]

/-- The flags `-d /dev/sda1 -u pi -g pi`. -/
def sampleFlags : Flags := { d := "/dev/sda1", u := "pi", g := "pi" }

/-- Whether an action is a call of `os.Chown`. -/
def Event.isChown : Event → Bool
  | .chown _ _ _ => true
  | _ => false

/-- Pathname resolution ignores repeated slashes: every run of `/` becomes one. -/
def collapseSlashes : List Char → List Char
  | [] => []
  | [c] => [c]
  | c :: d :: cs => if c = '/' ∧ d = '/' then collapseSlashes (d :: cs) else c :: collapseSlashes (d :: cs)

/-- The path argument of an `os.Chown` action after pathname resolution of
repeated slashes; other actions are left as they are. -/
def Event.resolved : Event → Event
  | .chown p u g => .chown (String.mk (collapseSlashes p.data)) u g
  | e => e

/-- The actions of `k` iterations of the confirmation loop. -/
def iterations : Nat → List Event
  | 0 => []
  | k + 1 => Event.stderr prompt :: Event.scanf :: iterations k

/-- Following the claim's words: the four octets of an interface address that
is an IP network address, is IPv4 (four bytes, or sixteen bytes that begin with
the ten zero bytes and two `0xff` bytes of an IPv4 address in IPv6 form) and is
not loopback (first octet 127). -/
def localCandidate : Addr → Option (Byte × Byte × Byte × Byte)
  | .ipNet [a, b, c, d] _ => if a = 127 then none else some (a, b, c, d)
  | .ipNet [p0, p1, p2, p3, p4, p5, p6, p7, p8, p9, p10, p11, a, b, c, d] _ =>
    if [p0, p1, p2, p3, p4, p5, p6, p7, p8, p9, p10, p11]
        = ([0, 0, 0, 0, 0, 0, 0, 0, 0, 0, 255, 255] : List Byte) ∧ a ≠ 127 then
      some (a, b, c, d)
    else none
  | _ => none

/-- Following the claim's words: the last address of the list that is an IP
network address, is IPv4 and is not loopback. -/
def lastLocal (addrs : List Addr) : Option (Byte × Byte × Byte × Byte) :=
  (addrs.filterMap localCandidate).getLast?

/-- A list of interface addresses as a multi-homed host returns it: loopback,
a LAN address in 4-byte form, the IPv6 loopback, a second LAN address in
16-byte form, an address that is not an IP network, and a loopback address in
16-byte form. -/
def manyAddrs : List Addr :=
  [Addr.ipNet [127, 0, 0, 1] [255, 0, 0, 0],
    Addr.ipNet [192, 168, 1, 42] [255, 255, 255, 0],
    Addr.ipNet IPv6loopback [],
    Addr.ipNet [0, 0, 0, 0, 0, 0, 0, 0, 0, 0, 255, 255, 10, 0, 0, 5] [255, 255, 255, 0],
    Addr.other "ip" "fe80::1",
    Addr.ipNet [0, 0, 0, 0, 0, 0, 0, 0, 0, 0, 255, 255, 127, 0, 0, 2] [255, 0, 0, 0]]

/-! ## Files, as `appendLineToFile` sees them -/

/-- A node of the file system: a directory, or a regular file with its contents. -/
inductive Node where
  | dir
  | file (contents : String)
  deriving DecidableEq, Repr

/-- The file system: the nodes by path (the first entry of a path counts), and
the error, if any, with which the system refuses to create a file at a path
that has no node.  Access permissions are not modelled: the tool runs with root
privileges. -/
structure Disk where
  nodes : List (String × Node)
  createErr : String → Error

/-- The access mode of an open file. -/
inductive OpenFlag where
  | rdonly
  | rdwr
  deriving DecidableEq, Repr

/-- Go `*os.File`: the path, the access mode and the offset of the descriptor. -/
structure File where
  name : String
  flag : OpenFlag
  offset : Nat
  deriving DecidableEq, Repr

/-- Go `os.Stat`: the node, or `none` for the not-exist error. -/
def Stat (d : Disk) (name : String) : Option Node := d.nodes.lookup name

/-- Go `FileInfo.IsDir`. -/
def Node.IsDir : Node → Bool
  | .dir => true
  | .file _ => false

/-- Go `os.Create`: opens for reading and writing, creating the file when it
is absent and truncating it when it is there. -/
def Create (d : Disk) (name : String) : Except String (File × Disk) :=
  match d.nodes.lookup name with
  | some .dir => .error ("open " ++ name ++ ": is a directory")
  | some (.file _) =>
    .ok (⟨name, .rdwr, 0⟩, { d with nodes := (name, Node.file "") :: d.nodes })
  | none =>
    match d.createErr name with
    | some e => .error ("open " ++ name ++ ": " ++ e)
    | none => .ok (⟨name, .rdwr, 0⟩, { d with nodes := (name, Node.file "") :: d.nodes })

/-- Go `ioutil.ReadFile`. -/
def ReadFile (d : Disk) (name : String) : Except String String :=
  match d.nodes.lookup name with
  | some (.file contents) => .ok contents
  | some .dir => .error ("read " ++ name ++ ": is a directory")
  | none => .error ("open " ++ name ++ ": no such file or directory")

/-- Go `os.Open`: opens the named file for reading; the descriptor has mode
`O_RDONLY`. -/
def Open (d : Disk) (name : String) : Except String File :=
  match d.nodes.lookup name with
  | some _ => .ok ⟨name, .rdonly, 0⟩
  | none => .error ("open " ++ name ++ ": no such file or directory")

/-- Go `File.WriteString`: a descriptor opened read-only refuses the write with
`bad file descriptor`; otherwise the text overwrites the contents from the
offset of the descriptor. -/
def WriteString (d : Disk) (f : File) (s : String) : Except String Nat × Disk :=
  match f.flag with
  | .rdonly => (.error ("write " ++ f.name ++ ": bad file descriptor"), d)
  | .rdwr =>
    match d.nodes.lookup f.name with
    | some (.file contents) =>
      (.ok s.length, { d with nodes := (f.name, Node.file (String.mk
        (contents.data.take f.offset ++ s.data ++ contents.data.drop (f.offset + s.data.length))))
        :: d.nodes })
    | _ => (.error ("write " ++ f.name ++ ": bad file descriptor"), d)

/-- The function `fileExists`. -/
def fileExists (d : Disk) (filename : String) : Bool :=
  match Stat d filename with
  | none => false
  | some info => !info.IsDir

/-- The function `appendLineToFile`: the returned error and the file system
afterwards. -/
def appendLineToFile (d : Disk) (file line : String) : Error × Disk :=
  let created : Except String Disk :=
    if !fileExists d file then
      match Create d file with
      | .error e => .error ("could not create file " ++ file ++ ": " ++ e)
      | .ok r => .ok r.2
    else .ok d
  match created with
  | .error e => (some e, d)
  | .ok d1 =>
    match ReadFile d1 file with
    | .error e => (some ("could not read file: " ++ file ++ ": " ++ e), d1)
    | .ok b =>
      if Contains b line then (none, d1)
      else
        match Open d1 file with
        | .error e => (some ("could not open file: " ++ file ++ ": " ++ e), d1)
        | .ok f =>
          match WriteString d1 f line with
          | (.error e, d2) => (some ("could not write to file: " ++ file ++ ": " ++ e), d2)
          | (.ok _, d2) => (none, d2)

/-- A file system holding the Samba configuration file with one section. -/
def sampleDisk : Disk where
  nodes := [("/etc/samba", Node.dir), ("/etc/samba/smb.conf", Node.file "[global]\n")]
  createErr := fun _ => none

/-- The sample environment with a mount directory that cannot be created and
ownership changes that are refused; the operator types `y` twice. -/
def failingMountWorld : World :=
  { sampleWorld with
    MkdirAll := fun _ _ => some "mkdir /mnt/usb: read-only file system"
    Chown := fun p _ _ => some ("chown " ++ p ++ ": operation not permitted")
    stdin := [Scan.token "y", Scan.token "y"] }

/-- The sample environment with both service-enable commands failing. -/
def failingServiceWorld : World :=
  { sampleWorld with
    Run := fun n _ => if n = "update-rc.d" then some "exit status 1" else none }

/-! ## The confirmation loop -/

theorem confirmLoop_at_y (stdin : List Scan) (err : Error) :
    confirmLoop stdin "y" err = ([], some (err, stdin)) := by
  cases stdin <;> simp [confirmLoop]

theorem store_ne_y (r : Scan) (c : String) (hc : c ≠ "y") (hr : r ≠ Scan.token "y") :
    r.store c ≠ "y" := by
  cases r with
  | token t =>
    intro h
    apply hr
    simpa [Scan.store] using h
  | fail m => simpa [Scan.store] using hc

theorem confirmLoop_without_y (stdin : List Scan) :
    ∀ (c : String) (err : Error), c ≠ "y" → (∀ r ∈ stdin, r ≠ Scan.token "y") →
      confirmLoop stdin c err = (iterations stdin.length, none) := by
  induction stdin with
  | nil => intro c err hc _; simp [confirmLoop, hc, iterations]
  | cons r rest ih =>
    intro c err hc h
    have hr : r ≠ Scan.token "y" := h r (List.mem_cons_self _ _)
    have hrest : ∀ x ∈ rest, x ≠ Scan.token "y" := fun x hx => h x (List.mem_cons_of_mem _ hx)
    simp [confirmLoop, hc, iterations, ih (r.store c) r.error (store_ne_y r c hc hr) hrest]

theorem confirmLoop_first_y (pre : List Scan) :
    ∀ (rest : List Scan) (c : String) (err : Error), c ≠ "y" →
      (∀ r ∈ pre, r ≠ Scan.token "y") →
      confirmLoop (pre ++ Scan.token "y" :: rest) c err
        = (iterations (pre.length + 1), some (none, rest)) := by
  induction pre with
  | nil =>
    intro rest c err hc _
    simp [confirmLoop, hc, iterations, Scan.store, Scan.error, confirmLoop_at_y]
  | cons r pre ih =>
    intro rest c err hc h
    have hr : r ≠ Scan.token "y" := h r (List.mem_cons_self _ _)
    have hpre : ∀ x ∈ pre, x ≠ Scan.token "y" := fun x hx => h x (List.mem_cons_of_mem _ hx)
    have := ih rest (r.store c) r.error (store_ne_y r c hc hr) hpre
    simp [confirmLoop, hc, this, iterations]

theorem filter_isChown_iterations (k : Nat) : (iterations k).filter Event.isChown = [] := by
  induction k with
  | zero => rfl
  | succ k ih => simp [iterations, Event.isChown, ih]

theorem confirmLoop_trace (stdin : List Scan) :
    ∀ (c : String) (err : Error), ∃ k, (confirmLoop stdin c err).1 = iterations k := by
  induction stdin with
  | nil => intro c err; exact ⟨0, by by_cases hc : c = "y" <;> simp [confirmLoop, hc, iterations]⟩
  | cons r rest ih =>
    intro c err
    by_cases hc : c = "y"
    · exact ⟨0, by simp [confirmLoop, hc, iterations]⟩
    · obtain ⟨k, hk⟩ := ih (r.store c) r.error
      exact ⟨k + 1, by simp [confirmLoop, hc, iterations, hk]⟩

/-- C9: on an input whose first token `y` comes after the `y`-free outcomes
`pre`, the confirmation loop runs exactly `pre.length + 1` iterations and
leaves, with the rest of the input unread, and `createMountDirectory` and
`makeMntDirAccessible` then return; on the `y`-free input `pre` alone the loop
never exits and neither function returns. -/
theorem confirmation_loop_exits_at_first_y (w : World) (f : Flags) (g : Globals)
    (pre rest : List Scan) (err : Error) (hpre : ∀ r ∈ pre, r ≠ Scan.token "y") :
    confirmLoop (pre ++ Scan.token "y" :: rest) "" err
        = (iterations (pre.length + 1), some (none, rest))
      ∧ confirmLoop pre "" err = (iterations pre.length, none)
      ∧ (createMountDirectory w f g (pre ++ Scan.token "y" :: rest)).2 = Flow.ret none g rest
      ∧ (∃ g1, (makeMntDirAccessible w g (pre ++ Scan.token "y" :: rest)).2
          = Flow.ret none g1 rest)
      ∧ (createMountDirectory w f g pre).2 = Flow.hang
      ∧ (makeMntDirAccessible w g pre).2 = Flow.hang := by
  have hy : ("" : String) ≠ "y" := by decide
  refine ⟨confirmLoop_first_y pre rest "" err hy hpre, confirmLoop_without_y pre "" err hy hpre,
    ?_, ?_, ?_, ?_⟩
  · simp [createMountDirectory, confirmLoop_first_y pre rest "" _ hy hpre]
  · simp [makeMntDirAccessible, confirmLoop_first_y pre rest "" _ hy hpre]
  · simp [createMountDirectory, confirmLoop_without_y pre "" _ hy hpre]
  · simp [makeMntDirAccessible, confirmLoop_without_y pre "" _ hy hpre]

/-- C9 at the input `Y`, `yes`, a failed read, `y`, `n`: three tokens do not end
the loop, the fourth does, and `n` is left unread. -/
theorem confirmation_loop_exits_at_first_y_witness :
    confirmLoop ([Scan.token "Y", Scan.token "yes", Scan.fail "unexpected newline"]
        ++ Scan.token "y" :: [Scan.token "n"]) "" none
        = (iterations 4, some (none, [Scan.token "n"]))
      ∧ (createMountDirectory sampleWorld sampleFlags {}
          [Scan.token "Y", Scan.token "yes", Scan.fail "unexpected newline"]).2 = Flow.hang :=
  have h := confirmation_loop_exits_at_first_y sampleWorld sampleFlags {}
    [Scan.token "Y", Scan.token "yes", Scan.fail "unexpected newline"] [Scan.token "n"] none
    (by decide)
  ⟨h.1, h.2.2.2.2.1⟩

/-! ## The ownership walk of `createMountDirectory` -/

theorem split_mntDir : Split mntDir "/" = ["", "mnt", "usb"] := by decide

theorem chownLoop_mntDir (w : World) (gid : Int) (err : Error) :
    (chownLoop w gid (Split mntDir "/") "" err []).2.2
      = [Event.chown "/" (-1) gid, Event.chown "//mnt" (-1) gid,
          Event.chown "//mnt/usb" (-1) gid] := by
  have h1 : ("" : String) ++ "/" ++ "" = "/" := by decide
  have h2 : ("/" : String) ++ "/" ++ "mnt" = "//mnt" := by decide
  have h3 : ("//mnt" : String) ++ "/" ++ "usb" = "//mnt/usb" := by decide
  simp [split_mntDir, chownLoop, h1, h2, h3]

theorem createMountDirectory_chowns (w : World) (f : Flags) (g : Globals) (stdin : List Scan) :
    (createMountDirectory w f g stdin).1.filter Event.isChown
      = [Event.chown "/" (-1) g.gid, Event.chown "//mnt" (-1) g.gid,
          Event.chown "//mnt/usb" (-1) g.gid] := by
  obtain ⟨k, hk⟩ := confirmLoop_trace stdin "" (chownLoop w g.gid (Split mntDir "/") ""
    (w.MkdirAll mntDir 1777) []).2.1
  simp only [createMountDirectory]
  split <;>
    simp [hk, chownLoop_mntDir, List.filter_append, filter_isChown_iterations, Event.isChown]

/-- C10: for every outcome of the system calls and every input,
`createMountDirectory` calls `os.Chown` exactly three times, in order, on the
path levels `/`, `/mnt` and `/mnt/usb` from the root to the mount directory,
each call with owner -1 and the group `gid`.  The path arguments are built as
`p + "/" + v` over `strings.Split(mntDir, "/")`, whose first component is
empty, so they read `/`, `//mnt` and `//mnt/usb`; pathname resolution takes a
run of slashes for one, which gives the three levels. -/
theorem createMountDirectory_chown_calls (w : World) (f : Flags) (g : Globals)
    (stdin : List Scan) :
    ((createMountDirectory w f g stdin).1.filter Event.isChown).map Event.resolved
        = [Event.chown "/" (-1) g.gid, Event.chown "/mnt" (-1) g.gid,
            Event.chown "/mnt/usb" (-1) g.gid]
      ∧ ((createMountDirectory w f g stdin).1.filter Event.isChown).length = 3
      ∧ (createMountDirectory w f g stdin).1.filter Event.isChown
        = [Event.chown "/" (-1) g.gid, Event.chown "//mnt" (-1) g.gid,
            Event.chown "//mnt/usb" (-1) g.gid] := by
  have h1 : String.mk (collapseSlashes ("/" : String).data) = "/" := by decide
  have h2 : String.mk (collapseSlashes ("//mnt" : String).data) = "/mnt" := by decide
  have h3 : String.mk (collapseSlashes ("//mnt/usb" : String).data) = "/mnt/usb" := by decide
  rw [createMountDirectory_chowns]
  exact ⟨by simp [Event.resolved, h1, h2, h3], rfl, rfl⟩

/-- C10 in the sample environment with group id 1000 and the operator typing
`y`: the three ownership changes are those of `/`, `/mnt` and `/mnt/usb`. -/
theorem createMountDirectory_chown_calls_witness :
    ((createMountDirectory sampleWorld sampleFlags { gid := 1000 } [Scan.token "y"]).1.filter
        Event.isChown).map Event.resolved
      = [Event.chown "/" (-1) 1000, Event.chown "/mnt" (-1) 1000,
          Event.chown "/mnt/usb" (-1) 1000] :=
  (createMountDirectory_chown_calls sampleWorld sampleFlags { gid := 1000 } [Scan.token "y"]).1

/-! ## The argument and privilege gate of `main` -/

theorem TrimSpace_of_all_space (s : String) (h : ∀ c ∈ s.data, IsSpace c = true) :
    TrimSpace s = "" := by
  have h1 : s.data.dropWhile IsSpace = [] := by
    rw [List.dropWhile_eq_nil_iff]
    exact h
  simp [TrimSpace, h1]

/-- C3: when one of the flags `-d`, `-u`, `-g` is empty, the whole run of `main`
is: the usage text is written to standard error and the process exits with
status 0; no other action is in the trace, whatever the environment. -/
theorem main_missing_flag_prints_usage (w : World) (f : Flags)
    (h : f.d = "" ∨ f.u = "" ∨ f.g = "") :
    main w f = ⟨[Event.stderr usage], Outcome.exit 0⟩ := by
  have hc : checkRequiredFlags f = some ⟨[Event.stderr usage], Outcome.exit 0⟩ := by
    unfold checkRequiredFlags
    rw [if_pos]
    tauto
  simp [main, hc]

/-- C3 at the flags `-d /dev/sda1 -u pi` with no `-g`, under `sudo`. -/
theorem main_missing_flag_prints_usage_witness :
    main sampleWorld { d := "/dev/sda1", u := "pi" } = ⟨[Event.stderr usage], Outcome.exit 0⟩ :=
  main_missing_flag_prints_usage sampleWorld { d := "/dev/sda1", u := "pi" } (Or.inr (Or.inr rfl))

/-- C4: with the three required flags non-empty and `SUDO_USER` unset, empty or
made of white space only, the whole run of `main` is: the deferred function
prints the root-privileges error and the process exits with status 1; no
lookup, enumeration, directory, ownership or command action is in the trace. -/
theorem main_without_sudo_fails_first (w : World) (f : Flags)
    (hd : f.d ≠ "") (hu : f.u ≠ "") (hg : f.g ≠ "")
    (hs : w.env "SUDO_USER" = none
      ∨ ∃ s, w.env "SUDO_USER" = some s ∧ ∀ c ∈ s.data, IsSpace c = true) :
    main w f = ⟨[Event.stdout
      "error running raspiNetworkShareSetup: this command should be run with root priviledges"],
      Outcome.exit 1⟩ := by
  have hc : checkRequiredFlags f = none := by
    simp [checkRequiredFlags, hd, hu, hg]
  have ht : TrimSpace (Getenv w "SUDO_USER") = "" := by
    apply TrimSpace_of_all_space
    rcases hs with h | ⟨s, h, hsp⟩
    · simp [Getenv, h]
    · simpa [Getenv, h] using hsp
  simp [main, hc, ht, deferred]

/-- C4 at `SUDO_USER` set to a blank, a tab and a no-break space. -/
theorem main_without_sudo_fails_first_witness :
    main { sampleWorld with env := fun _ => some " \t\u00a0" } sampleFlags
      = ⟨[Event.stdout
        "error running raspiNetworkShareSetup: this command should be run with root priviledges"],
        Outcome.exit 1⟩ :=
  main_without_sudo_fails_first { sampleWorld with env := fun _ => some " \t\u00a0" } sampleFlags
    (by decide) (by decide) (by decide) (Or.inr ⟨" \t\u00a0", rfl, by decide⟩)

/-! ## Text and parsing of IPv4 addresses -/

set_option maxRecDepth 100000 in
theorem ubtoa_facts : ∀ v : Byte,
    dtoi (ubtoa v ++ ['.']) = (v.val, (ubtoa v).length, true)
      ∧ dtoi (ubtoa v) = (v.val, (ubtoa v).length, true)
      ∧ ¬ (1 < (ubtoa v).length ∧ (ubtoa v).head? = some '0')
      ∧ ubtoa v ≠ []
      ∧ (∀ c ∈ ubtoa v, c ≠ '.' ∧ c ≠ ':')
      ∧ (Fin.ofNat v.val : Byte) = v
      ∧ String.mk (ubtoa v) = toString v.val := by
  decide

theorem dtoiLoop_dot (ds r : List Char) :
    ∀ n i, dtoiLoop (ds ++ '.' :: r) n i = dtoiLoop (ds ++ ['.']) n i := by
  induction ds with
  | nil => intro n i; simp [dtoiLoop]
  | cons c cs ih => intro n i; simp [dtoiLoop, ih]

theorem dtoi_ubtoa (v : Byte) (rest : List Char) (hrest : rest = [] ∨ ∃ r, rest = '.' :: r) :
    dtoi (ubtoa v ++ rest) = (v.val, (ubtoa v).length, true) := by
  rcases hrest with h | ⟨r, h⟩
  · subst h
    simpa using (ubtoa_facts v).2.1
  · subst h
    unfold dtoi
    rw [dtoiLoop_dot]
    exact (ubtoa_facts v).1

theorem head_ubtoa_append (v : Byte) (rest : List Char) :
    (ubtoa v ++ rest).head? = (ubtoa v).head? := by
  have h := (ubtoa_facts v).2.2.2.1
  cases hu : ubtoa v with
  | nil => exact absurd hu h
  | cons c cs => rfl

theorem parseIPv4Fields_first (v : Byte) (k : Nat) (rest : List Char) (p : List Byte)
    (hrest : rest = [] ∨ ∃ r, rest = '.' :: r) :
    parseIPv4Fields (k + 1) 0 (ubtoa v ++ rest) p = parseIPv4Fields k 1 rest (p ++ [v]) := by
  have hne := (ubtoa_facts v).2.2.2.1
  have hz := (ubtoa_facts v).2.2.1
  have hv : v.val ≤ 255 := by omega
  have hlen : (ubtoa v ++ rest).length ≠ 0 := by
    simp [hne]
  have hd := dtoi_ubtoa v rest hrest
  have hf := (ubtoa_facts v).2.2.2.2.2.1
  rw [parseIPv4Fields]
  simp [hd, hv, hz, hf, hne, head_ubtoa_append]

theorem parseIPv4Fields_next (v : Byte) (k i : Nat) (rest : List Char) (p : List Byte)
    (hrest : rest = [] ∨ ∃ r, rest = '.' :: r) :
    parseIPv4Fields (k + 1) (i + 1) ('.' :: (ubtoa v ++ rest)) p
      = parseIPv4Fields k (i + 2) rest (p ++ [v]) := by
  have hne := (ubtoa_facts v).2.2.2.1
  have hz := (ubtoa_facts v).2.2.1
  have hv : v.val ≤ 255 := by omega
  have hd := dtoi_ubtoa v rest hrest
  have hf := (ubtoa_facts v).2.2.2.2.2.1
  rw [parseIPv4Fields]
  simp [hd, hv, hz, hf, hne, head_ubtoa_append]

theorem dotted_data (a b c d : Byte) :
    (dotted a b c d).data
      = ubtoa a ++ '.' :: (ubtoa b ++ '.' :: (ubtoa c ++ '.' :: (ubtoa d ++ []))) := by
  simp [dotted]

theorem parseIPv4_dotted (a b c d : Byte) : parseIPv4 (dotted a b c d).data = IPv4 a b c d := by
  have h4 : parseIPv4Fields 1 3 ('.' :: (ubtoa d ++ [])) [a, b, c]
      = parseIPv4Fields 0 4 [] [a, b, c, d] :=
    parseIPv4Fields_next d 0 2 [] [a, b, c] (Or.inl rfl)
  have h3 : parseIPv4Fields 2 2 ('.' :: (ubtoa c ++ '.' :: (ubtoa d ++ []))) [a, b]
      = parseIPv4Fields 1 3 ('.' :: (ubtoa d ++ [])) [a, b, c] :=
    parseIPv4Fields_next c 1 1 ('.' :: (ubtoa d ++ [])) [a, b] (Or.inr ⟨_, rfl⟩)
  have h2 : parseIPv4Fields 3 1
        ('.' :: (ubtoa b ++ '.' :: (ubtoa c ++ '.' :: (ubtoa d ++ [])))) [a]
      = parseIPv4Fields 2 2 ('.' :: (ubtoa c ++ '.' :: (ubtoa d ++ []))) [a, b] :=
    parseIPv4Fields_next b 2 0 ('.' :: (ubtoa c ++ '.' :: (ubtoa d ++ []))) [a]
      (Or.inr ⟨_, rfl⟩)
  have h1 : parseIPv4Fields 4 0
        (ubtoa a ++ '.' :: (ubtoa b ++ '.' :: (ubtoa c ++ '.' :: (ubtoa d ++ [])))) []
      = parseIPv4Fields 3 1
        ('.' :: (ubtoa b ++ '.' :: (ubtoa c ++ '.' :: (ubtoa d ++ [])))) [a] :=
    parseIPv4Fields_first a 3
      ('.' :: (ubtoa b ++ '.' :: (ubtoa c ++ '.' :: (ubtoa d ++ [])))) [] (Or.inr ⟨_, rfl⟩)
  unfold parseIPv4
  rw [dotted_data, show IPv4len = 4 from rfl, h1, h2, h3, h4]
  rfl

theorem parseIPScan_to_dot (p : String → IP) (s : List Char) (pre rest : List Char)
    (hpre : ∀ c ∈ pre, c ≠ '.' ∧ c ≠ ':') :
    parseIPScan p s (pre ++ '.' :: rest) = parseIPv4 s := by
  induction pre with
  | nil => simp [parseIPScan]
  | cons c cs ih =>
    have hc := hpre c (List.mem_cons_self _ _)
    simp [parseIPScan, hc.1, hc.2, ih (fun x hx => hpre x (List.mem_cons_of_mem _ hx))]

theorem ParseIP_dotted (p : String → IP) (a b c d : Byte) :
    ParseIP p (dotted a b c d) = IPv4 a b c d := by
  have h := parseIPScan_to_dot p (dotted a b c d).data (ubtoa a)
    (ubtoa b ++ '.' :: (ubtoa c ++ '.' :: (ubtoa d ++ []))) (ubtoa_facts a).2.2.2.2.1
  unfold ParseIP
  rw [← parseIPv4_dotted a b c d, ← h]
  congr 1
  exact dotted_data a b c d


theorem To4_shape (ip : IP) : To4 ip = [] ∨ ∃ a b c d, To4 ip = [a, b, c, d] := by
  unfold To4
  split
  · rename_i h
    right
    match ip, h with
    | [a, b, c, d], _ => exact ⟨a, b, c, d, rfl⟩
  · split
    · rename_i h
      right
      have hl : ip.length = 16 := by
        simp [IPv6len] at h
        exact h.1.1
      match ip, hl with
      | [_, _, _, _, _, _, _, _, _, _, _, _, a, b, c, d], _ => exact ⟨a, b, c, d, rfl⟩
    · left; rfl

theorem dotted_ne_empty (a b c d : Byte) : dotted a b c d ≠ "" := by
  intro h
  have h1 := congrArg String.data h
  rw [dotted_data] at h1
  have hne := (ubtoa_facts a).2.2.2.1
  cases hu : ubtoa a with
  | nil => exact hne hu
  | cons x xs => rw [hu] at h1; simp at h1

theorem localCandidate_length (ip : IP) (m : List Byte)
    (h : localCandidate (Addr.ipNet ip m) ≠ none) : ip.length = 4 ∨ ip.length = 16 := by
  unfold localCandidate at h
  split at h
  · rename_i heq
    cases heq
    left; rfl
  · rename_i heq
    cases heq
    right; rfl
  · exact absurd rfl h

theorem localCandidate_ipNet (ip : IP) (m : List Byte) :
    localCandidate (Addr.ipNet ip m) = match To4 ip with
      | [a, b, c, d] => if a = 127 then none else some (a, b, c, d)
      | _ => none := by
  by_cases h4 : ip.length = 4
  · match ip, h4 with
    | [a, b, c, d], _ => simp [localCandidate, To4, IPv4len]
  · by_cases h16 : ip.length = 16
    · match ip, h16 with
      | [p0, p1, p2, p3, p4, p5, p6, p7, p8, p9, p10, p11, a, b, c, d], _ =>
        by_cases hp : [p0, p1, p2, p3, p4, p5, p6, p7, p8, p9, p10, p11]
            = ([0, 0, 0, 0, 0, 0, 0, 0, 0, 0, 255, 255] : List Byte)
        · simp only [List.cons.injEq, and_true] at hp
          obtain ⟨q0, q1, q2, q3, q4, q5, q6, q7, q8, q9, q10, q11⟩ := hp
          subst q0 q1 q2 q3 q4 q5 q6 q7 q8 q9 q10 q11
          by_cases ha : a = 127 <;> simp [localCandidate, To4, IPv4len, IPv6len, isZeros, ha]
        · have hz : ¬ (isZeros [p0, p1, p2, p3, p4, p5, p6, p7, p8, p9] = true
              ∧ p10 = 255 ∧ p11 = 255) := by
            intro hh
            apply hp
            simp [isZeros] at hh
            simp [hh]
          simp [localCandidate, To4, IPv4len, IPv6len, hp, hz]
    · have hn : localCandidate (Addr.ipNet ip m) = none := by
        by_contra hne
        rcases localCandidate_length ip m hne with h | h
        · exact h4 h
        · exact h16 h
      simp [hn, To4, IPv4len, IPv6len, h4, h16]

theorem pickAddr_eq (w : World) (ip : String) (x : Addr) :
    pickAddr w ip x = match localCandidate x with
      | some q => dotted q.1 q.2.1 q.2.2.1 q.2.2.2
      | none => ip := by
  cases x with
  | other n t => rfl
  | ipNet ipn m =>
    rw [localCandidate_ipNet]
    rcases To4_shape ipn with h | ⟨a, b, c, d, h⟩
    · simp [pickAddr, h]
    · have hlen : ipn.length ≠ 0 := by
        intro h0
        have : ipn = [] := List.length_eq_zero.mp h0
        subst this
        simp [To4, IPv4len, IPv6len] at h
      by_cases ha : a = 127
      · simp [pickAddr, h, IsLoopback, ha]
      · simp [pickAddr, h, IsLoopback, ha, IPString, hlen]

theorem foldl_pickAddr (w : World) (addrs : List Addr) :
    ∀ init : String, addrs.foldl (pickAddr w) init = match lastLocal addrs with
      | some q => dotted q.1 q.2.1 q.2.2.1 q.2.2.2
      | none => init := by
  induction addrs with
  | nil => intro init; rfl
  | cons x rest ih =>
    intro init
    rw [List.foldl_cons, ih, pickAddr_eq]
    unfold lastLocal at *
    cases hx : localCandidate x with
    | none => simp [List.filterMap_cons, hx]
    | some q =>
      simp only [List.filterMap_cons, hx]
      cases hr : rest.filterMap localCandidate with
      | nil => simp
      | cons y ys =>
        rw [List.getLast?_cons_cons]
        cases hl : (y :: ys).getLast? with
        | none => simp at hl
        | some z => rfl


theorem getLocalIpAddress_spec (w : World) (g : Globals) (addrs : List Addr)
    (h : w.InterfaceAddrs = .ok addrs) :
    getLocalIpAddress w g =
      match lastLocal addrs with
      | some q => ([Event.stdout "getting local ip address\n", Event.interfaceAddrs], none,
          { g with localIP := IPv4 q.1 q.2.1 q.2.2.1 q.2.2.2 })
      | none => ([Event.stdout "getting local ip address\n", Event.interfaceAddrs],
          some "could not find the local ip address", g) := by
  unfold getLocalIpAddress
  rw [h]
  simp only [foldl_pickAddr]
  cases lastLocal addrs with
  | none => simp
  | some q => simp [dotted_ne_empty, ParseIP_dotted]

theorem To4_IPv4 (a b c d : Byte) : To4 (IPv4 a b c d) = [a, b, c, d] := by
  simp [To4, IPv4, v4InV6Prefix, IPv4len, IPv6len, isZeros]

set_option maxRecDepth 100000 in
theorem land_255 : ∀ a : Byte, a &&& 255 = a := by decide

set_option maxRecDepth 100000 in
theorem land_0 : ∀ a : Byte, a &&& 0 = 0 := by decide

theorem Mask_IPv4 (a b c d : Byte) : Mask (IPv4 a b c d) (CIDRMask 24 32) = [a, b, c, 0] := by
  have hm : CIDRMask 24 32 = [255, 255, 255, 0] := by decide
  simp [hm, Mask, IPv4, v4InV6Prefix, IPv4len, IPv6len, land_255, land_0]

theorem subnetText_IPv4 (w : World) (a b c d : Byte) :
    subnetText w (IPv4 a b c d) = dotted a b c 0 ++ "/24" := by
  simp [subnetText, Mask_IPv4, IPString, To4, IPv4len]


theorem dotted_eq (a b c d : Byte) :
    dotted a b c d = toString a.val ++ "." ++ toString b.val ++ "." ++ toString c.val ++ "."
      ++ toString d.val := by
  rw [← (ubtoa_facts a).2.2.2.2.2.2, ← (ubtoa_facts b).2.2.2.2.2.2,
    ← (ubtoa_facts c).2.2.2.2.2.2, ← (ubtoa_facts d).2.2.2.2.2.2]
  apply String.ext
  simp [dotted, String.data_append]

theorem makeMntDirAccessible_head (w : World) (g : Globals) (stdin : List Scan) :
    (makeMntDirAccessible w g stdin).1.take 2
      = [Event.stdout ("using ip " ++ IPString w.ipText g.localIP ++ "\n"),
          Event.stdout
            ("MANUAL STEP: to make the mount accessible, append the following line to the /etc/exports file:\n"
              ++ expLine w g.localIP ++ "\n")] := by
  simp only [makeMntDirAccessible]
  split <;> simp [List.take]

theorem getLocalIpAddress_success (w : World) (g g1 : Globals) (tr : List Event)
    (h : getLocalIpAddress w g = (tr, none, g1)) :
    ∃ a b c d, g1.localIP = IPv4 a b c d := by
  cases hi : w.InterfaceAddrs with
  | error e => simp [getLocalIpAddress, hi] at h
  | ok addrs =>
    rw [getLocalIpAddress_spec w g addrs hi] at h
    cases hl : lastLocal addrs with
    | none => simp [hl] at h
    | some q =>
      simp [hl] at h
      exact ⟨q.1, q.2.1, q.2.2.1, q.2.2.2, by rw [← h.2]⟩

/-- C1: whenever `getLocalIpAddress` succeeds and the address it stored in
`localIP` is the IPv4 address `a.b.c.d` (it is stored in the 16-byte form), the
subnet text of `makeMntDirAccessible` is `a.b.c.0/24` (decimal octets), the
export line is `/mnt/usb a.b.c.0/24(rw,sync)`, and the function first prints
`using ip a.b.c.d` and then the manual-step message ending in that line. -/
theorem subnet_text_of_local_address (w : World) (g g1 : Globals) (tr : List Event)
    (stdin : List Scan) (a b c d : Byte)
    (h : getLocalIpAddress w g = (tr, none, g1)) (h4 : To4 g1.localIP = [a, b, c, d]) :
    g1.localIP = IPv4 a b c d
      ∧ subnetText w g1.localIP
        = toString a.val ++ "." ++ toString b.val ++ "." ++ toString c.val ++ ".0/24"
      ∧ expLine w g1.localIP
        = "/mnt/usb " ++ toString a.val ++ "." ++ toString b.val ++ "." ++ toString c.val
          ++ ".0/24(rw,sync)"
      ∧ (makeMntDirAccessible w g1 stdin).1.take 2
        = [Event.stdout ("using ip " ++ toString a.val ++ "." ++ toString b.val ++ "."
            ++ toString c.val ++ "." ++ toString d.val ++ "\n"),
          Event.stdout
            ("MANUAL STEP: to make the mount accessible, append the following line to the /etc/exports file:\n"
              ++ "/mnt/usb " ++ toString a.val ++ "." ++ toString b.val ++ "."
              ++ toString c.val ++ ".0/24(rw,sync)" ++ "\n")] := by
  obtain ⟨a1, b1, c1, d1, hip⟩ := getLocalIpAddress_success w g g1 tr h
  rw [hip, To4_IPv4] at h4
  simp only [List.cons.injEq, and_true] at h4
  obtain ⟨ha, hb, hc, hd⟩ := h4
  subst ha hb hc hd
  have hs : subnetText w g1.localIP
      = toString a1.val ++ "." ++ toString b1.val ++ "." ++ toString c1.val ++ ".0/24" := by
    rw [hip, subnetText_IPv4, dotted_eq]
    apply String.ext
    simp [String.data_append]
    rfl
  have he : expLine w g1.localIP
      = "/mnt/usb " ++ toString a1.val ++ "." ++ toString b1.val ++ "." ++ toString c1.val
        ++ ".0/24(rw,sync)" := by
    unfold expLine
    rw [hs]
    apply String.ext
    simp [String.data_append, mntDir]
  have hu : IPString w.ipText g1.localIP
      = toString a1.val ++ "." ++ toString b1.val ++ "." ++ toString c1.val ++ "."
        ++ toString d1.val := by
    rw [← dotted_eq, hip]
    simp only [IPString]
    rw [To4_IPv4]
    simp [IPv4, v4InV6Prefix]
  refine ⟨hip, hs, he, ?_⟩
  rw [makeMntDirAccessible_head, he, hu]
  have e1 : ∀ x y : String, x.data = y.data → Event.stdout x = Event.stdout y :=
    fun _ _ hxy => by rw [String.ext hxy]
  refine congrArg₂ List.cons (e1 _ _ ?_) (congrArg₂ List.cons (e1 _ _ ?_) rfl) <;>
    simp [String.data_append]


/-- C1 at the address 192.168.1.42 of the sample environment: the subnet text is
`192.168.1.0/24` and the export line `/mnt/usb 192.168.1.0/24(rw,sync)`. -/
theorem subnet_text_of_local_address_witness :
    subnetText sampleWorld (IPv4 192 168 1 42) = "192.168.1.0/24"
      ∧ expLine sampleWorld (IPv4 192 168 1 42) = "/mnt/usb 192.168.1.0/24(rw,sync)" :=
  have h := subnet_text_of_local_address sampleWorld {} { localIP := IPv4 192 168 1 42 }
    [Event.stdout "getting local ip address\n", Event.interfaceAddrs] [] 192 168 1 42
    (by decide) (by decide)
  ⟨h.2.1.trans (by decide), h.2.2.1.trans (by decide)⟩

/-- C2: after a successful enumeration, `getLocalIpAddress` returns nil and
stores in `localIP` the 16-byte form (ten zero bytes, two `0xff` bytes and the
four octets) of the last address of the list that is an IP network address, is
IPv4 and is not loopback, when there is one; when there is none it returns the
error `could not find the local ip address` and leaves the package variables as
they were; and it returns an error exactly when there is none. -/
theorem getLocalIpAddress_selects_last_local (w : World) (g : Globals) (addrs : List Addr)
    (h : w.InterfaceAddrs = .ok addrs) :
    (∀ a b c d, lastLocal addrs = some (a, b, c, d) →
        getLocalIpAddress w g
          = ([Event.stdout "getting local ip address\n", Event.interfaceAddrs], none,
              { g with localIP := [0, 0, 0, 0, 0, 0, 0, 0, 0, 0, 255, 255, a, b, c, d] }))
      ∧ (lastLocal addrs = none →
        getLocalIpAddress w g
          = ([Event.stdout "getting local ip address\n", Event.interfaceAddrs],
              some "could not find the local ip address", g))
      ∧ ((getLocalIpAddress w g).2.1 ≠ none ↔ ∀ x ∈ addrs, localCandidate x = none) := by
  have hs := getLocalIpAddress_spec w g addrs h
  refine ⟨?_, ?_, ?_⟩
  · intro a b c d hl
    rw [hs, hl]
    rfl
  · intro hl
    rw [hs, hl]
  · rw [hs]
    have hiff : lastLocal addrs = none ↔ ∀ x ∈ addrs, localCandidate x = none := by
      simp [lastLocal, List.getLast?_eq_none_iff, List.filterMap_eq_nil_iff]
    cases hl : lastLocal addrs with
    | none =>
      have := hiff.mp hl
      simpa using this
    | some q =>
      have hne : ¬ ∀ x ∈ addrs, localCandidate x = none := fun hall => by
        rw [hiff.mpr hall] at hl
        cases hl
      simp [hne]

/-- C2 on two lists.  On `manyAddrs`, where 192.168.1.42 and then 10.0.0.5
qualify and a loopback address comes last, the call succeeds and stores
10.0.0.5, the last one, in 16-byte form; on a list holding only the loopback
address 127.0.0.1 the call fails with the error and `localIP` stays nil. -/
theorem getLocalIpAddress_selects_last_local_witness :
    getLocalIpAddress { sampleWorld with InterfaceAddrs := .ok manyAddrs } {}
        = ([Event.stdout "getting local ip address\n", Event.interfaceAddrs], none,
            { localIP := [0, 0, 0, 0, 0, 0, 0, 0, 0, 0, 255, 255, 10, 0, 0, 5] })
      ∧ getLocalIpAddress
          { sampleWorld with InterfaceAddrs := .ok [Addr.ipNet [127, 0, 0, 1] [255, 0, 0, 0]] } {}
        = ([Event.stdout "getting local ip address\n", Event.interfaceAddrs],
            some "could not find the local ip address", {}) :=
  ⟨(getLocalIpAddress_selects_last_local { sampleWorld with InterfaceAddrs := .ok manyAddrs } {}
      manyAddrs rfl).1 10 0 0 5 (by decide),
    (getLocalIpAddress_selects_last_local
      { sampleWorld with InterfaceAddrs := .ok [Addr.ipNet [127, 0, 0, 1] [255, 0, 0, 0]] } {}
      [Addr.ipNet [127, 0, 0, 1] [255, 0, 0, 0]] rfl).2.1 (by decide)⟩

/-! ## Errors of the mount-directory and service steps -/

theorem confirmLoop_exit_error (stdin : List Scan) :
    ∀ (c : String) (err e : Error) (rest : List Scan), c ≠ "y" →
      (confirmLoop stdin c err).2 = some (e, rest) → e = none := by
  induction stdin with
  | nil => intro c err e rest hc h; simp [confirmLoop, hc] at h
  | cons r rs ih =>
    intro c err e rest hc h
    simp only [confirmLoop, hc, if_false] at h
    by_cases hy : r.store c = "y"
    · rw [hy, confirmLoop_at_y] at h
      cases r with
      | token t =>
        simp [Scan.error] at h
        exact h.1.symm
      | fail m => exact absurd hy (by simpa [Scan.store] using hc)
    · exact ih _ _ e rest hy h

theorem createMountDirectory_result (w : World) (f : Flags) (g : Globals) (stdin : List Scan) :
    (createMountDirectory w f g stdin).2 = Flow.hang
      ∨ ∃ rest, (createMountDirectory w f g stdin).2 = Flow.ret none g rest := by
  simp only [createMountDirectory]
  split
  · left; rfl
  · rename_i err rest hc
    right
    have := confirmLoop_exit_error stdin "" _ err rest (by decide) hc
    exact ⟨rest, by rw [this]⟩

theorem makeMntDirAccessible_result (w : World) (g : Globals) (stdin : List Scan) :
    (makeMntDirAccessible w g stdin).2 = Flow.hang
      ∨ ∃ rest, (makeMntDirAccessible w g stdin).2
          = Flow.ret none { g with err := w.Run "update-rc.d" ["nfs-common", "enable"] } rest := by
  simp only [makeMntDirAccessible]
  split
  · left; rfl
  · rename_i err rest hc
    right
    exact ⟨rest, rfl⟩

theorem not_mem_iterations (n : String) (a : List String) (k : Nat) :
    Event.command n a ∉ iterations k := by
  induction k with
  | zero => simp [iterations]
  | succ k ih => simp [iterations, ih]

theorem not_mem_confirmLoop (n : String) (a : List String) (stdin : List Scan) (c : String)
    (err : Error) : Event.command n a ∉ (confirmLoop stdin c err).1 := by
  obtain ⟨k, hk⟩ := confirmLoop_trace stdin c err
  rw [hk]
  exact not_mem_iterations n a k

theorem not_mem_setupIds (w : World) (f : Flags) (g : Globals) (n : String) (a : List String) :
    Event.command n a ∉ (setupIds w f g).1 := by
  unfold setupIds
  cases w.LookupGroup f.g with
  | error e => simp
  | ok gg =>
    cases w.Lookup f.u with
    | error e => simp
    | ok uu =>
      simp only []
      split <;> (try split) <;> simp

theorem not_mem_createMountDirectory (w : World) (f : Flags) (g : Globals) (stdin : List Scan)
    (n : String) (a : List String) : Event.command n a ∉ (createMountDirectory w f g stdin).1 := by
  have hc := not_mem_confirmLoop n a stdin "" (chownLoop w g.gid (Split mntDir "/") ""
    (w.MkdirAll mntDir 1777) []).2.1
  simp only [createMountDirectory]
  split <;> simp [chownLoop_mntDir, hc]

theorem not_mem_getLocalIpAddress (w : World) (g : Globals) (n : String) (a : List String) :
    Event.command n a ∉ (getLocalIpAddress w g).1 := by
  unfold getLocalIpAddress
  cases w.InterfaceAddrs with
  | error e => simp
  | ok addrs =>
    simp only []
    split <;> simp

theorem not_mem_installRequiredSoftware (w : World) :
    Event.command "update-rc.d" ["rpcbind", "enable"] ∉ (installRequiredSoftware w).1 := by
  simp [installRequiredSoftware]

theorem not_mem_makeMntDirAccessible_hang (w : World) (g : Globals) (stdin : List Scan)
    (n : String) (a : List String) (h : (makeMntDirAccessible w g stdin).2 = Flow.hang) :
    Event.command n a ∉ (makeMntDirAccessible w g stdin).1 := by
  have hc := not_mem_confirmLoop n a stdin "" g.err
  simp only [makeMntDirAccessible] at h ⊢
  split at h
  · rename_i hn
    simp [hn, hc]
  · cases h

theorem main_enable_exit (w : World) (f : Flags)
    (h : Event.command "update-rc.d" ["rpcbind", "enable"] ∈ (main w f).trace) :
    (main w f).outcome = Outcome.exit 0
      ∧ (main w f).trace.getLast? = some (Event.stderr
          "Done.\nFinish the setup by restarting the computer with \"sudo reboot now\"\n") := by
  have n1 := not_mem_setupIds w f {} "update-rc.d" ["rpcbind", "enable"]
  unfold main at h ⊢
  cases hc : checkRequiredFlags f with
  | some r =>
    unfold checkRequiredFlags at hc
    split at hc
    · cases hc
      simp only [checkRequiredFlags, *, if_true] at h
      simp at h
    · cases hc
  | none =>
    simp only [hc] at h ⊢
    by_cases ht : TrimSpace (Getenv w "SUDO_USER") = ""
    · simp [ht, deferred] at h
    · simp only [ht, if_false] at h ⊢
      generalize setupIds w f {} = r1 at h n1 ⊢
      obtain ⟨t1, e1, g1⟩ := r1
      cases e1 with
      | some e => simp [deferred] at h n1; exact absurd h n1
      | none =>
        simp only [ne_eq, not_true_eq_false, if_false] at h n1 ⊢
        have n2 := not_mem_getLocalIpAddress w
          { uid := g1.uid, gid := g1.gid, localIP := g1.localIP, err := none }
          "update-rc.d" ["rpcbind", "enable"]
        generalize getLocalIpAddress w
          { uid := g1.uid, gid := g1.gid, localIP := g1.localIP, err := none } = r2 at h n2 ⊢
        obtain ⟨t2, e2, g2⟩ := r2
        cases e2 with
        | some e =>
          simp [deferred] at h n2
          exact absurd h (by simp [n1, n2])
        | none =>
          simp only [ne_eq, not_true_eq_false, if_false] at h n2 ⊢
          have n3 := not_mem_createMountDirectory w f
            { uid := g2.uid, gid := g2.gid, localIP := g2.localIP, err := none } w.stdin
            "update-rc.d" ["rpcbind", "enable"]
          have c3 := createMountDirectory_result w f
            { uid := g2.uid, gid := g2.gid, localIP := g2.localIP, err := none } w.stdin
          generalize createMountDirectory w f
            { uid := g2.uid, gid := g2.gid, localIP := g2.localIP, err := none } w.stdin
            = r3 at h n3 c3 ⊢
          obtain ⟨t3, fl3⟩ := r3
          rcases c3 with c3 | ⟨in3, c3⟩
          · simp only at c3
            subst c3
            simp at h n3
            exact absurd h (by simp [n1, n2, n3])
          · simp only at c3
            subst c3
            simp only [ne_eq, not_true_eq_false, if_false] at h n3 ⊢
            have n4 := not_mem_installRequiredSoftware w
            generalize installRequiredSoftware w = r4 at h n4 ⊢
            obtain ⟨t4, e4⟩ := r4
            cases e4 with
            | some e =>
              simp [deferred] at h n4
              exact absurd h (by simp [n1, n2, n3, n4])
            | none =>
              simp only [ne_eq, not_true_eq_false, if_false] at h n4 ⊢
              have n5 := not_mem_makeMntDirAccessible_hang w
                { uid := g2.uid, gid := g2.gid, localIP := g2.localIP, err := none } in3
                "update-rc.d" ["rpcbind", "enable"]
              have c5 := makeMntDirAccessible_result w
                { uid := g2.uid, gid := g2.gid, localIP := g2.localIP, err := none } in3
              generalize makeMntDirAccessible w
                { uid := g2.uid, gid := g2.gid, localIP := g2.localIP, err := none } in3
                = r5 at h n5 c5 ⊢
              obtain ⟨t5, fl5⟩ := r5
              rcases c5 with c5 | ⟨in5, c5⟩
              · simp only at c5
                subst c5
                simp at h n5
                exact absurd h (by simp [n1, n2, n3, n4, n5])
              · simp only at c5
                subst c5
                simp [deferred]


/-! ## The append-if-absent helper -/

theorem appendLineToFile_present (d : Disk) (file line contents : String)
    (hf : d.nodes.lookup file = some (Node.file contents)) (hc : Contains contents line = true) :
    appendLineToFile d file line = (none, d) := by
  simp [appendLineToFile, fileExists, Stat, hf, Node.IsDir, ReadFile, hc]

theorem appendLineToFile_absent_line (d : Disk) (file line contents : String)
    (hf : d.nodes.lookup file = some (Node.file contents)) (hc : Contains contents line = false) :
    appendLineToFile d file line
      = (some ("could not write to file: " ++ file ++ ": " ++ ("write " ++ file
          ++ ": bad file descriptor")), d) := by
  simp [appendLineToFile, fileExists, Stat, hf, Node.IsDir, ReadFile, hc, Open, WriteString]

/-- C7: on an existing regular file whose contents contain the line,
`appendLineToFile` returns nil and leaves the file system as it was, so a
second call with the same file and line leaves what the first call left. -/
theorem appendLineToFile_idempotent_when_present (d : Disk) (file line contents : String)
    (hf : d.nodes.lookup file = some (Node.file contents)) (hc : Contains contents line = true) :
    appendLineToFile d file line = (none, d)
      ∧ ReadFile (appendLineToFile d file line).2 file = .ok contents
      ∧ appendLineToFile (appendLineToFile d file line).2 file line
        = appendLineToFile d file line := by
  have h := appendLineToFile_present d file line contents hf hc
  refine ⟨h, ?_, ?_⟩
  · rw [h]
    simp [ReadFile, hf]
  · rw [h]
    exact h

/-- C7 on the sample configuration file and the line `[global]`. -/
theorem appendLineToFile_idempotent_when_present_witness :
    (appendLineToFile sampleDisk "/etc/samba/smb.conf" "[global]").1 = none
      ∧ (appendLineToFile sampleDisk "/etc/samba/smb.conf" "[global]").2.nodes
        = sampleDisk.nodes :=
  have h := appendLineToFile_idempotent_when_present sampleDisk "/etc/samba/smb.conf" "[global]"
    "[global]\n" (by decide) (by decide)
  ⟨congrArg Prod.fst h.1, congrArg (fun r => r.2.nodes) h.1⟩

/-- C8 fails on the code: on the sample configuration file and the absent line
`[share]`, `appendLineToFile` returns the write error of the read-only
descriptor and the file keeps its contents. -/
theorem appendLineToFile_new_line_not_written :
    (appendLineToFile sampleDisk "/etc/samba/smb.conf" "[share]\n").1
        = some "could not write to file: /etc/samba/smb.conf: write /etc/samba/smb.conf: bad file descriptor"
      ∧ ReadFile (appendLineToFile sampleDisk "/etc/samba/smb.conf" "[share]\n").2
          "/etc/samba/smb.conf" = .ok "[global]\n" := by
  have hl : sampleDisk.nodes.lookup "/etc/samba/smb.conf" = some (Node.file "[global]\n") := by
    decide
  rw [appendLineToFile_absent_line sampleDisk "/etc/samba/smb.conf" "[share]\n" "[global]\n"
    hl (by decide)]
  exact ⟨by decide, by simp [ReadFile, hl]⟩

/-- C5 fails on the code: when `os.MkdirAll` and every `os.Chown` fail and the
operator confirms, `createMountDirectory` returns nil, `main` goes on to the
package installation and the service commands, and the process exits with
status 0. -/
theorem createMountDirectory_errors_lost :
    (createMountDirectory failingMountWorld sampleFlags { gid := 1000 }
        failingMountWorld.stdin).2 = Flow.ret none { gid := 1000 } [Scan.token "y"]
      ∧ Event.command "apt"
          ["install", "-y", "nfs-server", "nfs-common", "autofs", "samba", "samba-common-bin"]
        ∈ (main failingMountWorld sampleFlags).trace
      ∧ Event.command "update-rc.d" ["nfs-common", "enable"]
        ∈ (main failingMountWorld sampleFlags).trace
      ∧ (main failingMountWorld sampleFlags).outcome = Outcome.exit 0 := by
  decide

/-- C6: whatever the two service-enable commands answer, once the input holds a
token `y` `makeMntDirAccessible` passes its confirmation loop and returns nil,
the error of the last command being left in the package variable `err`; and
every run of `main` that reaches the first service-enable command ends with the
`Done.` message and exit status 0, the deferred function seeing a nil `err`. -/
theorem service_enable_errors_dropped (w : World) (f : Flags) (g : Globals)
    (pre rest : List Scan) (hpre : ∀ r ∈ pre, r ≠ Scan.token "y")
    (h : Event.command "update-rc.d" ["rpcbind", "enable"] ∈ (main w f).trace) :
    (makeMntDirAccessible w g (pre ++ Scan.token "y" :: rest)).2
        = Flow.ret none { g with err := w.Run "update-rc.d" ["nfs-common", "enable"] } rest
      ∧ (main w f).outcome = Outcome.exit 0
      ∧ (main w f).trace.getLast? = some (Event.stderr
          "Done.\nFinish the setup by restarting the computer with \"sudo reboot now\"\n") := by
  refine ⟨?_, main_enable_exit w f h⟩
  simp [makeMntDirAccessible, confirmLoop_first_y pre rest "" _ (by decide) hpre]

/-- C6 in the environment where both service-enable commands fail: the function
returns nil with the last command's error in the package variable, and the run
ends with exit status 0. -/
theorem service_enable_errors_dropped_witness :
    (makeMntDirAccessible failingServiceWorld {} ([] ++ Scan.token "y" :: [])).2
        = Flow.ret none { err := some "exit status 1" } []
      ∧ (main failingServiceWorld sampleFlags).outcome = Outcome.exit 0 :=
  have h := service_enable_errors_dropped failingServiceWorld sampleFlags {} [] []
    (by decide) (by decide)
  ⟨h.1, h.2.1⟩

end RaspiShare
